import Mathlib

/-!
Verification of the canvas-connect collaborative drawing core.

The definitions below are a shallow embedding of the TypeScript source:
the pure canvas engine (`addStroke`, `undoOperation`, `redoOperation`,
`clearCanvas`, `createInitialState` from `lib/canvas-engine`), the drawing
session hooks (`useDrawingState`, the handlers of `CollaborativeCanvas`
and `DrawingCanvas`) and the incoming-message dispatch of the sync
channel (`useCanvasSync`).  JavaScript numbers are modelled as rationals,
`Date.now()` as an explicit `now : Nat` parameter passed to every
operation that reads the clock.
-/

namespace CanvasConnect

/-- The `tool` field of the engine stroke type: brush or eraser. -/
inductive Tool
  | brush
  | eraser
deriving DecidableEq

/-- Model of `Point {x, y, pressure?}`; float coordinates become `Rat`. -/
structure Point where
  x : Rat
  y : Rat
  pressure : Option Rat
deriving DecidableEq

/-- Source `DrawingStroke` from `lib/canvas-engine`. -/
structure DrawingStroke where
  id : String
  userId : String
  tool : Tool
  color : String
  strokeWidth : Rat
  points : List Point
  timestamp : Nat
deriving DecidableEq

/-- The `type` tag of a `DrawOperation`: add, undo, redo or clear. -/
inductive OpType
  | add
  | undo
  | redo
  | clear
deriving DecidableEq

/-- Source `DrawOperation` from `lib/canvas-engine`; the optional `stroke?`
field becomes an `Option`. -/
structure DrawOperation where
  type : OpType
  stroke : Option DrawingStroke
  userId : String
  timestamp : Nat
deriving DecidableEq

/-- Source `CanvasState {strokes, undoStack, redoStack}`. -/
structure CanvasState where
  strokes : List DrawingStroke
  undoStack : List DrawOperation
  redoStack : List DrawOperation
deriving DecidableEq

/-- Source `addStroke(state, stroke, userId)`: appends the stroke and an `add`
operation unconditionally and clears the redo stack.  `now` stands for the
`Date.now()` read when the operation record is built. -/
def addStroke (state : CanvasState) (stroke : DrawingStroke) (userId : String)
    (now : Nat) : CanvasState :=
  let operation : DrawOperation :=
    { type := OpType.add, stroke := some stroke, userId := userId, timestamp := now }
  { strokes := state.strokes ++ [stroke]
    undoStack := state.undoStack ++ [operation]
    redoStack := [] }

/-- Source `undoOperation(state, userId)`: returns `state` when the undo
stack is empty, otherwise pops its last element; when that element is an
`add` carrying a stroke it removes every stroke with the matching `id`, and
it always pushes an `undo` record carrying the popped stroke. -/
def undoOperation (state : CanvasState) (userId : String) (now : Nat) : CanvasState :=
  match state.undoStack.getLast? with
  | none => state
  | some lastOperation =>
    let newUndoStack := state.undoStack.dropLast
    let newStrokes :=
      match lastOperation.type, lastOperation.stroke with
      | OpType.add, some st => state.strokes.filter (fun s => decide (s.id ≠ st.id))
      | _, _ => state.strokes
    let undoOp : DrawOperation :=
      { type := OpType.undo, stroke := lastOperation.stroke, userId := userId,
        timestamp := now }
    { strokes := newStrokes
      undoStack := newUndoStack
      redoStack := state.redoStack ++ [undoOp] }

/-- Source `redoOperation(state, userId)`: returns `state` when the redo stack is
empty, otherwise pops its last element; when that element carries a stroke
it re-appends the stroke and pushes a fresh `add` record stamped with the
redoing user and the current time. -/
def redoOperation (state : CanvasState) (userId : String) (now : Nat) : CanvasState :=
  match state.redoStack.getLast? with
  | none => state
  | some lastRedo =>
    let newRedoStack := state.redoStack.dropLast
    match lastRedo.stroke with
    | some st =>
      { strokes := state.strokes ++ [st]
        undoStack := state.undoStack ++
          [{ type := OpType.add, stroke := some st, userId := userId, timestamp := now }]
        redoStack := newRedoStack }
    | none =>
      { strokes := state.strokes
        undoStack := state.undoStack
        redoStack := newRedoStack }

/-- Source `clearCanvas(userId)`: ignores all prior state and returns a fresh empty
`CanvasState`. -/
def clearCanvas (userId : String) : CanvasState :=
  { strokes := [], undoStack := [], redoStack := [] }

/-- Source `createInitialState()`. -/
def createInitialState : CanvasState :=
  { strokes := [], undoStack := [], redoStack := [] }

/-! Sync channel and session controller.

`SyncMessage` mirrors the wire envelope of `useCanvasSync`; the `data`
payload, an untyped `unknown` in the source that each handler casts, is
modelled as a tagged union of the shapes the senders actually produce. -/

/-- The nine `type` tags of `SyncMessage` in `useCanvasSync`. -/
inductive MsgType
  | stroke_start
  | stroke_update
  | stroke_end
  | undo
  | redo
  | clear
  | cursor_move
  | user_join
  | user_leave
  | sync_state
deriving DecidableEq

/-- The payload shapes carried in `data` by the senders in `useCanvasSync`. -/
inductive MsgData
  | strokeData (stroke : DrawingStroke)
  | startData (id : String) (tool : Tool) (color : String) (strokeWidth : Rat)
      (points : List Point)
  | updateData (id : String) (points : List Point)
  | cursorData (position : Point) (isDrawing : Bool)
  | userData (id : String) (name : String) (color : String)
  | stateData (state : CanvasState)
  | noData
deriving DecidableEq

/-- The `SyncMessage` envelope `{type, userId, data?, timestamp}`. -/
structure SyncMessage where
  type : MsgType
  userId : String
  data : MsgData
  timestamp : Nat
deriving DecidableEq

/-- Source `User` from `useDrawingState`; the optional fields become
`Option`s. -/
structure User where
  id : String
  name : String
  color : String
  cursorPosition : Option Point
  isDrawing : Option Bool
deriving DecidableEq

/-- The `USER_COLORS` palette of `useDrawingState`. -/
def USER_COLORS : List String :=
  ["hsl(200, 90%, 50%)", "hsl(340, 80%, 55%)", "hsl(160, 70%, 45%)",
   "hsl(45, 90%, 55%)", "hsl(280, 70%, 60%)", "hsl(20, 85%, 55%)"]

/-- Source `updateUserCursor` from `useDrawingState`: update the matching roster
entry, or append a freshly named and coloured one. -/
def updateUserCursor (users : List User) (uid : String) (position : Point)
    (isDrawing : Bool) : List User :=
  if users.any (fun u => u.id == uid) then
    users.map (fun u =>
      if u.id == uid then
        { u with cursorPosition := some position, isDrawing := some isDrawing }
      else u)
  else
    users ++ [{ id := uid
                name := "User " ++ toString (users.length + 1)
                color := USER_COLORS.getD (users.length % USER_COLORS.length) ""
                cursorPosition := some position
                isDrawing := some isDrawing }]

/-- Source `addUser` from `useDrawingState`: no-op on a duplicate id, otherwise
append, defaulting an empty (falsy) colour from the palette. -/
def addUser (users : List User) (user : User) : List User :=
  if users.any (fun u => u.id == user.id) then users
  else
    users ++ [{ user with
      color := if user.color = "" then
          USER_COLORS.getD (users.length % USER_COLORS.length) ""
        else user.color }]

/-- Source `removeUser` from `useDrawingState`. -/
def removeUser (users : List User) (uid : String) : List User :=
  users.filter (fun u => decide (u.id ≠ uid))

/-- The per-client receiving side: the local identity plus the state owned
by `useDrawingState` that incoming messages can touch. -/
structure ClientState where
  localUserId : String
  canvasState : CanvasState
  users : List User
deriving DecidableEq

/-- The broadcast drawing-event dispatch of `useCanvasSync`, with the
callbacks as wired by `CollaborativeCanvas`: own messages are ignored
first; `stroke_end` feeds `addRemoteStroke` (which calls `addStroke`
with the `userId` carried by the stroke itself); `undo`, `redo`
and `clear` replay the local history operations; the switch has no case
for `stroke_start` or `stroke_update`, so they fall through unhandled. -/
def handleMessage (c : ClientState) (msg : SyncMessage) (now : Nat) : ClientState :=
  if msg.userId = c.localUserId then c
  else
    match msg.type, msg.data with
    | MsgType.stroke_end, MsgData.strokeData stroke =>
        { c with canvasState := addStroke c.canvasState stroke stroke.userId now }
    | MsgType.undo, _ =>
        { c with canvasState := undoOperation c.canvasState c.localUserId now }
    | MsgType.redo, _ =>
        { c with canvasState := redoOperation c.canvasState c.localUserId now }
    | MsgType.clear, _ =>
        { c with canvasState := clearCanvas c.localUserId }
    | MsgType.cursor_move, MsgData.cursorData position isDrawing =>
        { c with users := updateUserCursor c.users msg.userId position isDrawing }
    | MsgType.user_join, MsgData.userData i n col =>
        { c with users := addUser c.users ⟨i, n, col, none, none⟩ }
    | MsgType.user_leave, _ =>
        { c with users := removeUser c.users msg.userId }
    | MsgType.sync_state, MsgData.stateData st =>
        { c with canvasState := st }
    | _, _ => c

/-- Deliver a list of messages in order, each with the `Date.now()` value
observed at its arrival. -/
def applyMsgs (c : ClientState) : List (SyncMessage × Nat) → ClientState
  | [] => c
  | p :: rest => applyMsgs (handleMessage c p.1 p.2) rest

/-- The drawing client: the session state of `useDrawingState` and
`DrawingCanvas` relevant to stroke recording, plus the messages the
sync channel has been asked to broadcast (`outbox`). -/
structure LocalClient where
  userId : String
  canvasState : CanvasState
  currentStroke : Option DrawingStroke
  isDrawing : Bool
  lastPoint : Option Point
  outbox : List SyncMessage
deriving DecidableEq

/-- Composition of `handleMove` of `DrawingCanvas` with `handleDrawMove` of
`CollaborativeCanvas` and `continueStroke` of `useDrawingState`: a
`cursor_move` is always broadcast; while drawing, a point at squared
distance below `4` from the last recorded point (the source compares
`sqrt(dx*dx+dy*dy) < 2`) is skipped, otherwise it is recorded into the
in-progress stroke.  `handleDrawMove` only calls `continueStroke`; no
other message is broadcast. -/
def handleMove (c : LocalClient) (point : Point) (now : Nat) : LocalClient :=
  let c1 := { c with outbox := c.outbox ++
    [{ type := MsgType.cursor_move, userId := c.userId,
       data := MsgData.cursorData point c.isDrawing, timestamp := now }] }
  if c.isDrawing then
    let pass :=
      match c.lastPoint with
      | some lp =>
          decide ((point.x - lp.x) * (point.x - lp.x) +
                  (point.y - lp.y) * (point.y - lp.y) ≥ 4)
      | none => true
    if pass then
      { c1 with
        lastPoint := some point
        currentStroke :=
          match c.currentStroke with
          | some cs => some { cs with points := cs.points ++ [point] }
          | none => none }
    else c1
  else c1

/-- Composition of `handleEnd` of `DrawingCanvas` with `handleDrawEnd` of
`CollaborativeCanvas`: `endStroke` commits the finished stroke locally only
when it has at least 2 points, but returns it in every case, and
`handleDrawEnd` broadcasts a `stroke_end` for every non-null return. -/
def handleDrawEnd (c : LocalClient) (now : Nat) : LocalClient :=
  match c.isDrawing, c.currentStroke with
  | true, some finishedStroke =>
      let cs :=
        if finishedStroke.points.length ≥ 2 then
          addStroke c.canvasState finishedStroke c.userId now
        else c.canvasState
      { c with
        isDrawing := false
        lastPoint := none
        canvasState := cs
        currentStroke := none
        outbox := c.outbox ++
          [{ type := MsgType.stroke_end, userId := c.userId,
             data := MsgData.strokeData finishedStroke, timestamp := now }] }
  | _, _ => c

/-! Reachable states for the history-stack invariant. -/

/-- One application of a canvas-engine transition, as invoked by the hooks. -/
inductive Action
  | add (stroke : DrawingStroke) (userId : String) (now : Nat)
  | undo (userId : String) (now : Nat)
  | redo (userId : String) (now : Nat)
  | clear (userId : String)

/-- Apply one engine transition. -/
def applyAction (s : CanvasState) : Action → CanvasState
  | Action.add stroke u t => addStroke s stroke u t
  | Action.undo u t => undoOperation s u t
  | Action.redo u t => redoOperation s u t
  | Action.clear u => clearCanvas u

/-- Run a sequence of engine transitions from `createInitialState()`. -/
def runActions (acts : List Action) : CanvasState :=
  acts.foldl applyAction createInitialState

/-! Claim theorems. -/

/-- C9: undo on empty history is a defined no-op — for every `CanvasState`
with an empty undo stack and every author and time, `undoOperation`
returns the state unchanged. -/
theorem undo_on_empty_history_noop (S : CanvasState) (a : String) (t : Nat)
    (h : S.undoStack = []) : undoOperation S a t = S := by
  simp [undoOperation, h]

/-- Witness for C9 at the initial state: `undo(emptyState) == emptyState`. -/
theorem undo_on_empty_history_noop_witness :
    undoOperation createInitialState "alice" 42 = createInitialState :=
  undo_on_empty_history_noop createInitialState "alice" 42 rfl

/-- C7: redo history is cleared by a new add — for every state with a
non-empty redo stack, `addStroke` yields a state whose redo stack is
empty. -/
theorem addStroke_clears_redoStack (S : CanvasState) (T : DrawingStroke)
    (a : String) (t : Nat) (h : S.redoStack ≠ []) :
    (addStroke S T a t).redoStack = [] := rfl

/-- Witness for C7: a concrete state with a one-element redo stack. -/
theorem addStroke_clears_redoStack_witness :
    (addStroke
      ⟨[], [], [⟨OpType.undo, none, "alice", 0⟩]⟩
      ⟨"s1", "alice", Tool.brush, "#e74c3c", 4, [⟨0, 0, none⟩, ⟨1, 1, none⟩], 5⟩
      "alice" 6).redoStack = [] :=
  addStroke_clears_redoStack
    ⟨[], [], [⟨OpType.undo, none, "alice", 0⟩]⟩
    ⟨"s1", "alice", Tool.brush, "#e74c3c", 4, [⟨0, 0, none⟩, ⟨1, 1, none⟩], 5⟩
    "alice" 6 (by decide)

/-- C1 counterexample: `addStroke` is not idempotent under duplicate
delivery — adding the same stroke twice to the empty state differs from
adding it once (the stroke is appended a second time, so a strokes list
can hold two entries with the same id). -/
theorem addStroke_not_idempotent_counterexample :
    addStroke
      (addStroke createInitialState
        ⟨"s1", "alice", Tool.brush, "#e74c3c", 4, [⟨0, 0, none⟩, ⟨1, 1, none⟩], 5⟩
        "alice" 7)
      ⟨"s1", "alice", Tool.brush, "#e74c3c", 4, [⟨0, 0, none⟩, ⟨1, 1, none⟩], 5⟩
      "alice" 7 ≠
    addStroke createInitialState
      ⟨"s1", "alice", Tool.brush, "#e74c3c", 4, [⟨0, 0, none⟩, ⟨1, 1, none⟩], 5⟩
      "alice" 7 := by decide

/-- C1 amended: `addStroke` performs no duplicate-id check — for every
state, stroke and author, the double add appends the stroke a second time
(`strokes = S.strokes ++ [T, T]`) and therefore never equals the single
add; duplicate delivery is not a no-op and a strokes list may contain more
than one entry per stroke id. -/
theorem addStroke_duplicate_appends (S : CanvasState) (T : DrawingStroke)
    (a : String) (t1 t2 : Nat) :
    (addStroke (addStroke S T a t1) T a t2).strokes = S.strokes ++ [T, T] ∧
    addStroke (addStroke S T a t1) T a t2 ≠ addStroke S T a t2 := by
  constructor
  · simp [addStroke]
  · intro h
    have hlen := congrArg (fun s => s.strokes.length) h
    simp [addStroke] at hlen

/-- A `stroke_start` or `stroke_update` message has no case in the
dispatch switch, so handling it leaves the whole client unchanged. -/
theorem handleMessage_preview_eq (c : ClientState) (m : SyncMessage) (t : Nat)
    (h : m.type = MsgType.stroke_start ∨ m.type = MsgType.stroke_update) :
    handleMessage c m t = c := by
  obtain ⟨ty, u, d, ts⟩ := m
  rcases h with h | h <;> subst h <;>
    by_cases hu : u = c.localUserId <;> cases d <;> simp [handleMessage, hu]

/-- Helper: `applyMsgs` distributes over list append. -/
theorem applyMsgs_append (c : ClientState) (xs ys : List (SyncMessage × Nat)) :
    applyMsgs c (xs ++ ys) = applyMsgs (applyMsgs c xs) ys := by
  induction xs generalizing c with
  | nil => rfl
  | cons p rest ih => simp [applyMsgs, ih]

/-- A batch consisting only of preview messages leaves the client unchanged. -/
theorem applyMsgs_previews_eq (c : ClientState) (ms : List (SyncMessage × Nat))
    (h : ∀ p ∈ ms, p.1.type = MsgType.stroke_start ∨ p.1.type = MsgType.stroke_update) :
    applyMsgs c ms = c := by
  induction ms generalizing c with
  | nil => rfl
  | cons p rest ih =>
    rw [applyMsgs, handleMessage_preview_eq c p.1 p.2 (h p (List.mem_cons_self p rest))]
    exact ih c fun q hq => h q (List.mem_cons_of_mem p hq)

/-- C8: self-echo suppression — an incoming drawing message whose `userId`
equals the id of the local client leaves the whole client state (canvas state
and user roster) unchanged; the guard returns before any dispatch. -/
theorem self_echo_suppressed (c : ClientState) (m : SyncMessage) (t : Nat)
    (h : m.userId = c.localUserId) : handleMessage c m t = c := by
  simp [handleMessage, h]

/-- Witness for C8: a self-authored `stroke_end` is ignored. -/
theorem self_echo_suppressed_witness :
    handleMessage ⟨"alice", ⟨[], [], []⟩, []⟩
      ⟨MsgType.stroke_end, "alice",
       MsgData.strokeData ⟨"s1", "alice", Tool.brush, "#e74c3c", 4,
         [⟨0, 0, none⟩, ⟨1, 1, none⟩], 5⟩, 7⟩ 8 =
    ⟨"alice", ⟨[], [], []⟩, []⟩ :=
  self_echo_suppressed ⟨"alice", ⟨[], [], []⟩, []⟩
    ⟨MsgType.stroke_end, "alice",
     MsgData.strokeData ⟨"s1", "alice", Tool.brush, "#e74c3c", 4,
       [⟨0, 0, none⟩, ⟨1, 1, none⟩], 5⟩, 7⟩ 8 rfl

/-- C5: `stroke_start`/`stroke_update` messages are presentation hints only
— delivering any batch of them leaves the client state of the receiving peer
(in particular its authoritative strokes list) unchanged, and a subsequent
`stroke_end` from another user commits exactly the stroke the `stroke_end`
message carries, with exactly its points, regardless of the preview
contents. -/
theorem preview_messages_hint_only_end_commits (c : ClientState)
    (ms : List (SyncMessage × Nat)) (u : String) (T : DrawingStroke)
    (tsEnd tEnd : Nat)
    (hms : ∀ p ∈ ms, p.1.type = MsgType.stroke_start ∨ p.1.type = MsgType.stroke_update)
    (hu : u ≠ c.localUserId) :
    applyMsgs c ms = c ∧
    (applyMsgs c
      (ms ++ [(⟨MsgType.stroke_end, u, MsgData.strokeData T, tsEnd⟩, tEnd)])).canvasState.strokes =
      c.canvasState.strokes ++ [T] := by
  have hprev := applyMsgs_previews_eq c ms hms
  refine ⟨hprev, ?_⟩
  rw [applyMsgs_append, hprev]
  simp [applyMsgs, handleMessage, hu, addStroke]

/-- Witness for C5 at end-to-end scenario 3: a `stroke_start` and two
`stroke_update` deltas (carrying other points) followed by a `stroke_end`
with a 5-point stroke leave the peer with exactly that stroke. -/
theorem preview_messages_hint_only_end_commits_witness :
    applyMsgs ⟨"bob", ⟨[], [], []⟩, []⟩
      [(⟨MsgType.stroke_start, "alice",
          MsgData.startData "s1" Tool.brush "#e74c3c" 4 [⟨0, 0, none⟩], 1⟩, 1),
       (⟨MsgType.stroke_update, "alice", MsgData.updateData "s1" [⟨1, 1, none⟩, ⟨2, 2, none⟩], 2⟩, 2),
       (⟨MsgType.stroke_update, "alice", MsgData.updateData "s1" [⟨3, 3, none⟩, ⟨4, 4, none⟩], 3⟩, 3)] =
      ⟨"bob", ⟨[], [], []⟩, []⟩ ∧
    (applyMsgs ⟨"bob", ⟨[], [], []⟩, []⟩
      ([(⟨MsgType.stroke_start, "alice",
           MsgData.startData "s1" Tool.brush "#e74c3c" 4 [⟨0, 0, none⟩], 1⟩, 1),
        (⟨MsgType.stroke_update, "alice", MsgData.updateData "s1" [⟨1, 1, none⟩, ⟨2, 2, none⟩], 2⟩, 2),
        (⟨MsgType.stroke_update, "alice", MsgData.updateData "s1" [⟨3, 3, none⟩, ⟨4, 4, none⟩], 3⟩, 3)] ++
       [(⟨MsgType.stroke_end, "alice",
           MsgData.strokeData ⟨"s1", "alice", Tool.brush, "#e74c3c", 4,
             [⟨0, 0, none⟩, ⟨1, 1, none⟩, ⟨2, 2, none⟩, ⟨3, 3, none⟩, ⟨4, 4, none⟩], 4⟩, 4⟩,
         4)])).canvasState.strokes =
      [] ++ [⟨"s1", "alice", Tool.brush, "#e74c3c", 4,
             [⟨0, 0, none⟩, ⟨1, 1, none⟩, ⟨2, 2, none⟩, ⟨3, 3, none⟩, ⟨4, 4, none⟩], 4⟩] :=
  preview_messages_hint_only_end_commits ⟨"bob", ⟨[], [], []⟩, []⟩
    [(⟨MsgType.stroke_start, "alice",
        MsgData.startData "s1" Tool.brush "#e74c3c" 4 [⟨0, 0, none⟩], 1⟩, 1),
     (⟨MsgType.stroke_update, "alice", MsgData.updateData "s1" [⟨1, 1, none⟩, ⟨2, 2, none⟩], 2⟩, 2),
     (⟨MsgType.stroke_update, "alice", MsgData.updateData "s1" [⟨3, 3, none⟩, ⟨4, 4, none⟩], 3⟩, 3)]
    "alice"
    ⟨"s1", "alice", Tool.brush, "#e74c3c", 4,
     [⟨0, 0, none⟩, ⟨1, 1, none⟩, ⟨2, 2, none⟩, ⟨3, 3, none⟩, ⟨4, 4, none⟩], 4⟩
    4 4 (by decide) (by decide)

/-- C6: `clear` returns a fresh empty `CanvasState` for every author
(regardless of prior state, which it does not even consult), records no
undoable operation (all three lists are empty), and an immediately
subsequent undo is a no-op — both on the clearing client and on a peer
that has applied a delivered `clear` message. -/
theorem clear_fresh_empty_and_undo_noop (a b u : String) (t t1 t2 : Nat)
    (c : ClientState) (m : SyncMessage)
    (hm : m.type = MsgType.clear) (hmu : m.userId ≠ c.localUserId) :
    clearCanvas a = ⟨[], [], []⟩ ∧
    undoOperation (clearCanvas a) b t = clearCanvas a ∧
    (handleMessage c m t1).canvasState = ⟨[], [], []⟩ ∧
    undoOperation (handleMessage c m t1).canvasState u t2 =
      (handleMessage c m t1).canvasState := by
  have h3 : (handleMessage c m t1).canvasState = ⟨[], [], []⟩ := by
    obtain ⟨ty, mu, d, ts⟩ := m
    subst hm
    cases d <;> simp [handleMessage, hmu, clearCanvas]
  exact ⟨rfl, rfl, h3, by rw [h3]; rfl⟩

/-- Witness for C6: end-to-end scenario 4 on concrete clients. -/
theorem clear_fresh_empty_and_undo_noop_witness :
    clearCanvas "alice" = ⟨[], [], []⟩ ∧
    undoOperation (clearCanvas "alice") "bob" 9 = clearCanvas "alice" ∧
    (handleMessage
      ⟨"bob", ⟨[⟨"s1", "alice", Tool.brush, "#e74c3c", 4, [⟨0, 0, none⟩, ⟨1, 1, none⟩], 5⟩],
               [⟨OpType.add, some ⟨"s1", "alice", Tool.brush, "#e74c3c", 4,
                  [⟨0, 0, none⟩, ⟨1, 1, none⟩], 5⟩, "alice", 5⟩], []⟩, []⟩
      ⟨MsgType.clear, "alice", MsgData.noData, 7⟩ 8).canvasState = ⟨[], [], []⟩ ∧
    undoOperation
      (handleMessage
        ⟨"bob", ⟨[⟨"s1", "alice", Tool.brush, "#e74c3c", 4, [⟨0, 0, none⟩, ⟨1, 1, none⟩], 5⟩],
                 [⟨OpType.add, some ⟨"s1", "alice", Tool.brush, "#e74c3c", 4,
                    [⟨0, 0, none⟩, ⟨1, 1, none⟩], 5⟩, "alice", 5⟩], []⟩, []⟩
        ⟨MsgType.clear, "alice", MsgData.noData, 7⟩ 8).canvasState "bob" 9 =
      (handleMessage
        ⟨"bob", ⟨[⟨"s1", "alice", Tool.brush, "#e74c3c", 4, [⟨0, 0, none⟩, ⟨1, 1, none⟩], 5⟩],
                 [⟨OpType.add, some ⟨"s1", "alice", Tool.brush, "#e74c3c", 4,
                    [⟨0, 0, none⟩, ⟨1, 1, none⟩], 5⟩, "alice", 5⟩], []⟩, []⟩
        ⟨MsgType.clear, "alice", MsgData.noData, 7⟩ 8).canvasState :=
  clear_fresh_empty_and_undo_noop "alice" "bob" "bob" 9 8 9
    ⟨"bob", ⟨[⟨"s1", "alice", Tool.brush, "#e74c3c", 4, [⟨0, 0, none⟩, ⟨1, 1, none⟩], 5⟩],
             [⟨OpType.add, some ⟨"s1", "alice", Tool.brush, "#e74c3c", 4,
                [⟨0, 0, none⟩, ⟨1, 1, none⟩], 5⟩, "alice", 5⟩], []⟩, []⟩
    ⟨MsgType.clear, "alice", MsgData.noData, 7⟩ rfl (by decide)

/-- C2 (code bug): finalizing a one-point stroke discards it from the
strokes list of the finalizing client, but `handleDrawEnd` still broadcasts
a `stroke_end` carrying it, and a receiving peer commits it unconditionally
— so the one-point stroke does end up in the strokes list of the peer,
contradicting the short-stroke rejection rule. -/
theorem short_stroke_discarded_locally_but_committed_by_peer :
    (handleDrawEnd
      ⟨"alice", ⟨[], [], []⟩,
       some ⟨"s1", "alice", Tool.brush, "#e74c3c", 4, [⟨0, 0, none⟩], 5⟩,
       true, some ⟨0, 0, none⟩, []⟩ 6).canvasState.strokes = [] ∧
    (handleDrawEnd
      ⟨"alice", ⟨[], [], []⟩,
       some ⟨"s1", "alice", Tool.brush, "#e74c3c", 4, [⟨0, 0, none⟩], 5⟩,
       true, some ⟨0, 0, none⟩, []⟩ 6).outbox =
      [⟨MsgType.stroke_end, "alice",
        MsgData.strokeData ⟨"s1", "alice", Tool.brush, "#e74c3c", 4, [⟨0, 0, none⟩], 5⟩, 6⟩] ∧
    (handleMessage ⟨"bob", ⟨[], [], []⟩, []⟩
      ⟨MsgType.stroke_end, "alice",
       MsgData.strokeData ⟨"s1", "alice", Tool.brush, "#e74c3c", 4, [⟨0, 0, none⟩], 5⟩, 6⟩
      7).canvasState.strokes =
      [⟨"s1", "alice", Tool.brush, "#e74c3c", 4, [⟨0, 0, none⟩], 5⟩] := by
  decide

/-- C4 (code bug): a pointer move that passes the 2-pixel distance filter
is recorded into the in-progress stroke, but the only message broadcast is
a `cursor_move` — `handleDrawMove` never invokes `sendStrokeUpdate`, so no
`stroke_update` is ever emitted. -/
theorem recorded_move_emits_no_stroke_update :
    (handleMove
      ⟨"alice", ⟨[], [], []⟩,
       some ⟨"s1", "alice", Tool.brush, "#e74c3c", 4, [⟨0, 0, none⟩], 5⟩,
       true, some ⟨0, 0, none⟩, []⟩ ⟨5, 0, none⟩ 7).currentStroke =
      some ⟨"s1", "alice", Tool.brush, "#e74c3c", 4, [⟨0, 0, none⟩, ⟨5, 0, none⟩], 5⟩ ∧
    (handleMove
      ⟨"alice", ⟨[], [], []⟩,
       some ⟨"s1", "alice", Tool.brush, "#e74c3c", 4, [⟨0, 0, none⟩], 5⟩,
       true, some ⟨0, 0, none⟩, []⟩ ⟨5, 0, none⟩ 7).outbox =
      [⟨MsgType.cursor_move, "alice", MsgData.cursorData ⟨5, 0, none⟩ true, 7⟩] ∧
    ((handleMove
      ⟨"alice", ⟨[], [], []⟩,
       some ⟨"s1", "alice", Tool.brush, "#e74c3c", 4, [⟨0, 0, none⟩], 5⟩,
       true, some ⟨0, 0, none⟩, []⟩ ⟨5, 0, none⟩ 7).outbox.filter
        (fun m => decide (m.type = MsgType.stroke_update))) = [] := by
  refine ⟨?_, ?_, ?_⟩ <;> norm_num [handleMove] <;> decide

/-- C3 counterexample: redo does not exactly restore the state undo started
from — the re-pushed `add` operation is stamped with the redoing author and
a fresh timestamp, so after an add by Bob (time 0) an undo/redo by Alice
(times 1 and 2) yields an undo stack differing from the original in the
`userId` and `timestamp` of its top entry. -/
theorem redo_undo_not_inverse_counterexample :
    redoOperation
      (undoOperation
        (addStroke createInitialState
          ⟨"s1", "bob", Tool.brush, "#e74c3c", 4, [⟨0, 0, none⟩, ⟨1, 1, none⟩], 0⟩
          "bob" 0)
        "alice" 1)
      "alice" 2 ≠
    addStroke createInitialState
      ⟨"s1", "bob", Tool.brush, "#e74c3c", 4, [⟨0, 0, none⟩, ⟨1, 1, none⟩], 0⟩
      "bob" 0 := by
  decide

/-- C3 amended: when the top of the undo stack is an `add` operation whose
stroke `T` is the last stroke and no earlier stroke shares the id of `T`,
`redo(undo(S,a),a)` restores `strokes` and `redoStack` exactly and
restores `undoStack` except that the top entry now carries the redoing
author `a` and the redo timestamp; full equality `redo(undo(S)) == S`
holds exactly when those coincide with the author and timestamp of the
original entry. -/
theorem redo_undo_restores_up_to_top_metadata (S : CanvasState)
    (init : List DrawOperation) (pre : List DrawingStroke) (T : DrawingStroke)
    (u0 a : String) (t0 t1 t2 : Nat)
    (hS : S.undoStack = init ++ [⟨OpType.add, some T, u0, t0⟩])
    (hstr : S.strokes = pre ++ [T])
    (hpre : ∀ s ∈ pre, s.id ≠ T.id) :
    redoOperation (undoOperation S a t1) a t2 =
      ⟨S.strokes, init ++ [⟨OpType.add, some T, a, t2⟩], S.redoStack⟩ ∧
    (u0 = a → t0 = t2 → redoOperation (undoOperation S a t1) a t2 = S) := by
  have hkeep : pre.filter (fun s => decide (s.id ≠ T.id)) = pre := by
    apply List.filter_eq_self.mpr
    intro s hs
    simpa using hpre s hs
  have hfilter : (pre ++ [T]).filter (fun s => decide (s.id ≠ T.id)) = pre := by
    rw [List.filter_append, hkeep]
    simp
  have hundo : undoOperation S a t1 =
      ⟨pre, init, S.redoStack ++ [⟨OpType.undo, some T, a, t1⟩]⟩ := by
    simp [undoOperation, hS, hstr, List.getLast?_concat, List.dropLast_concat, hfilter]
    exact hpre
  have hmain : redoOperation (undoOperation S a t1) a t2 =
      ⟨S.strokes, init ++ [⟨OpType.add, some T, a, t2⟩], S.redoStack⟩ := by
    rw [hundo]
    simp [redoOperation, List.getLast?_concat, List.dropLast_concat, hstr]
  refine ⟨hmain, ?_⟩
  rintro rfl rfl
  rw [hmain]
  conv_rhs => rw [show S = (⟨S.strokes, S.undoStack, S.redoStack⟩ : CanvasState) from rfl]
  rw [hS]

/-- Witness for the amended C3 statement: Bob adds a stroke at time 0, then
undoes at time 1 and redoes with timestamp 0 again — the redo restores the
full original state. -/
theorem redo_undo_restores_up_to_top_metadata_witness :
    redoOperation
      (undoOperation
        (addStroke createInitialState
          ⟨"s1", "bob", Tool.brush, "#e74c3c", 4, [⟨0, 0, none⟩, ⟨1, 1, none⟩], 0⟩
          "bob" 0)
        "bob" 1)
      "bob" 0 =
      ⟨(addStroke createInitialState
          ⟨"s1", "bob", Tool.brush, "#e74c3c", 4, [⟨0, 0, none⟩, ⟨1, 1, none⟩], 0⟩
          "bob" 0).strokes,
       [] ++ [⟨OpType.add,
          some ⟨"s1", "bob", Tool.brush, "#e74c3c", 4, [⟨0, 0, none⟩, ⟨1, 1, none⟩], 0⟩,
          "bob", 0⟩],
       (addStroke createInitialState
          ⟨"s1", "bob", Tool.brush, "#e74c3c", 4, [⟨0, 0, none⟩, ⟨1, 1, none⟩], 0⟩
          "bob" 0).redoStack⟩ ∧
    ("bob" = "bob" → 0 = 0 →
      redoOperation
        (undoOperation
          (addStroke createInitialState
            ⟨"s1", "bob", Tool.brush, "#e74c3c", 4, [⟨0, 0, none⟩, ⟨1, 1, none⟩], 0⟩
            "bob" 0)
          "bob" 1)
        "bob" 0 =
      addStroke createInitialState
        ⟨"s1", "bob", Tool.brush, "#e74c3c", 4, [⟨0, 0, none⟩, ⟨1, 1, none⟩], 0⟩
        "bob" 0) :=
  redo_undo_restores_up_to_top_metadata
    (addStroke createInitialState
      ⟨"s1", "bob", Tool.brush, "#e74c3c", 4, [⟨0, 0, none⟩, ⟨1, 1, none⟩], 0⟩
      "bob" 0)
    [] []
    ⟨"s1", "bob", Tool.brush, "#e74c3c", 4, [⟨0, 0, none⟩, ⟨1, 1, none⟩], 0⟩
    "bob" "bob" 0 1 0 rfl rfl (by simp)

/-- The history-stack shape invariant: every undo-stack entry is an `add`
operation carrying a stroke, and every redo-stack entry carries a stroke. -/
def HistoryWF (s : CanvasState) : Prop :=
  (∀ op ∈ s.undoStack, op.type = OpType.add ∧ op.stroke.isSome) ∧
  (∀ op ∈ s.redoStack, op.stroke.isSome)

/-- Each engine transition preserves the history-stack shape invariant. -/
theorem historyWF_applyAction (s : CanvasState) (act : Action)
    (h : HistoryWF s) : HistoryWF (applyAction s act) := by
  obtain ⟨hu, hr⟩ := h
  cases act with
  | add T u t =>
    constructor
    · intro op hop
      simp [applyAction, addStroke] at hop
      rcases hop with hop | rfl
      · exact hu op hop
      · exact ⟨rfl, rfl⟩
    · intro op hop
      simp [applyAction, addStroke] at hop
  | undo u t =>
    simp only [applyAction]
    cases hlast : s.undoStack.getLast? with
    | none =>
      simp only [undoOperation, hlast]
      exact ⟨hu, hr⟩
    | some lastOp =>
      have hmem : lastOp ∈ s.undoStack := List.mem_of_mem_getLast? (by simp [hlast])
      constructor
      · intro op hop
        simp [undoOperation, hlast] at hop
        exact hu op (List.mem_of_mem_dropLast hop)
      · intro op hop
        simp [undoOperation, hlast] at hop
        rcases hop with hop | rfl
        · exact hr op hop
        · exact (hu lastOp hmem).2
  | redo u t =>
    simp only [applyAction]
    cases hlast : s.redoStack.getLast? with
    | none =>
      simp only [redoOperation, hlast]
      exact ⟨hu, hr⟩
    | some lastOp =>
      have hmem : lastOp ∈ s.redoStack := List.mem_of_mem_getLast? (by simp [hlast])
      obtain ⟨st, hsome⟩ := Option.isSome_iff_exists.mp (hr lastOp hmem)
      constructor
      · intro op hop
        simp [redoOperation, hlast, hsome] at hop
        rcases hop with hop | rfl
        · exact hu op hop
        · exact ⟨rfl, rfl⟩
      · intro op hop
        simp [redoOperation, hlast, hsome] at hop
        exact hr op (List.mem_of_mem_dropLast hop)
  | clear u =>
    exact ⟨by simp [applyAction, clearCanvas], by simp [applyAction, clearCanvas]⟩

/-- C10: history-stack shape invariant for reachable states — in every
state reachable from `createInitialState()` by `addStroke`,
`undoOperation`, `redoOperation` and `clearCanvas`, every undo-stack entry
has type `add` with a present stroke and every redo-stack entry has a
present stroke; hence the `redoOperation` branch for a popped entry
without a stroke is unreachable. -/
theorem reachable_history_stacks_wellformed (acts : List Action) :
    (∀ op ∈ (runActions acts).undoStack, op.type = OpType.add ∧ op.stroke.isSome) ∧
    (∀ op ∈ (runActions acts).redoStack, op.stroke.isSome) := by
  have hfold : ∀ (s : CanvasState), HistoryWF s → HistoryWF (acts.foldl applyAction s) := by
    induction acts with
    | nil => intro s hs; exact hs
    | cons a rest ih =>
      intro s hs
      exact ih (applyAction s a) (historyWF_applyAction s a hs)
  exact hfold createInitialState ⟨by simp [createInitialState], by simp [createInitialState]⟩

/-- Witness for C10: after one add from the initial state, the single
undo-stack entry has type `add` and carries its stroke. -/
theorem reachable_history_stacks_wellformed_witness :
    (⟨OpType.add,
      some ⟨"s1", "alice", Tool.brush, "#e74c3c", 4, [⟨0, 0, none⟩, ⟨1, 1, none⟩], 0⟩,
      "alice", 1⟩ : DrawOperation).type = OpType.add ∧
    (⟨OpType.add,
      some ⟨"s1", "alice", Tool.brush, "#e74c3c", 4, [⟨0, 0, none⟩, ⟨1, 1, none⟩], 0⟩,
      "alice", 1⟩ : DrawOperation).stroke.isSome :=
  (reachable_history_stacks_wellformed
      [Action.add ⟨"s1", "alice", Tool.brush, "#e74c3c", 4, [⟨0, 0, none⟩, ⟨1, 1, none⟩], 0⟩
        "alice" 1]).1
    ⟨OpType.add,
     some ⟨"s1", "alice", Tool.brush, "#e74c3c", 4, [⟨0, 0, none⟩, ⟨1, 1, none⟩], 0⟩,
     "alice", 1⟩ (by decide)

end CanvasConnect
